import Mathlib

/-!
Verification of the round-trip ("trip") plugin pipeline
(`src/plugins/round_trip.hpp`): location resolution with hint reuse,
connectivity partitioning, tour-heuristic dispatch, route stitching and
result aggregation.  External collaborators (network facade, distance-table
engine, TSP heuristics, Tarjan SCC, JSON descriptor) are modelled as
oracle functions; the pipeline's own control flow is translated faithfully.
-/

namespace RoundTrip

/-- Input coordinate, as a pair of fixed-point integers. -/
structure Coordinate where
  lat : Int
  lon : Int
deriving DecidableEq

/-- Modelled from the spec: a PhantomNode carries internal node identifiers
(the struct itself lives outside `src/`). -/
structure PhantomNode where
  forward_node_id : Nat
  reverse_node_id : Nat
deriving DecidableEq

/-- Modelled from the spec: `PhantomNode::is_valid(number_of_nodes)` holds when
the node identifiers are within the current network's bound. -/
def PhantomNode.is_valid (p : PhantomNode) (number_of_nodes : Nat) : Bool :=
  decide (p.forward_node_id < number_of_nodes) &&
    decide (p.reverse_node_id < number_of_nodes)

/-- Request parameters used by the plugin (`RouteParameters`). -/
structure RouteParameters where
  coordinates : List Coordinate
  hints : List String
  check_sum : Nat
  tsp_algo : String
  uturns : Bool

/-- Oracles for the network facade (`DataFacadeT`) and the hint decoder
(`ObjectEncoder::DecodeFromBase64`), plus the basic coordinate validation of
`BasePlugin::check_all_coordinates`; all are external to `src/`. -/
structure Facade where
  checkSum : Nat
  numberOfNodes : Nat
  decodeFromBase64 : String → PhantomNode
  incrementalFind : Coordinate → Nat → List PhantomNode
  checkCoordinate : Coordinate → Bool

def defaultCoordinate : Coordinate := ⟨0, 0⟩

/-- Which branch of `GetPhantomNodes` produced a waypoint's phantom nodes:
the decoded client hint, or the incremental nearest-neighbour search. -/
inductive Resolution where
  | fromHint : PhantomNode → Resolution
  | fromSearch : List PhantomNode → Resolution
deriving DecidableEq

/-- Search fallback of `GetPhantomNodes` (lines 99-103): call
`IncrementalFindPhantomNodeForCoordinate(coords[i], vec[i], 1)`, then if more
than one candidate was returned erase the first one. -/
def searchResolve (facade : Facade) (rp : RouteParameters) (i : Nat) :
    List PhantomNode :=
  let found := facade.incrementalFind (rp.coordinates.getD i defaultCoordinate) 1
  if decide (1 < found.length) then found.tail else found

/-- Per-waypoint body of the loop in `GetPhantomNodes` (lines 87-105),
instrumented with which branch ran. -/
def resolveSlotR (facade : Facade) (rp : RouteParameters) (i : Nat) : Resolution :=
  let checksum_OK : Bool := rp.check_sum == facade.checkSum
  let hint := rp.hints.getD i ""
  if checksum_OK && decide (i < rp.hints.length) && !(hint == "") then
    let current_phantom_node := facade.decodeFromBase64 hint
    if current_phantom_node.is_valid facade.numberOfNodes then
      Resolution.fromHint current_phantom_node
    else
      Resolution.fromSearch (searchResolve facade rp i)
  else
    Resolution.fromSearch (searchResolve facade rp i)

/-- Contents of slot `i` of `phantom_node_vector` after the loop body ran. -/
def resolveSlot (facade : Facade) (rp : RouteParameters) (i : Nat) :
    List PhantomNode :=
  match resolveSlotR facade rp i with
  | Resolution.fromHint p => [p]
  | Resolution.fromSearch l => l

/-- `GetPhantomNodes` (lines 83-106): fill one slot per input coordinate. -/
def GetPhantomNodes (facade : Facade) (rp : RouteParameters) :
    List (List PhantomNode) :=
  (List.range rp.coordinates.length).map (resolveSlot facade rp)

/-- `BF_MAX_FEASABLE` (line 198). -/
def BF_MAX_FEASABLE : Nat := 10

/-- The three tour-construction heuristics selectable by the dispatcher. -/
inductive Algo where
  | BF | NN | FI
deriving DecidableEq

/-- Oracles for the external TSP heuristics
(`osrm::tsp::BruteForceTSP`, `NearestNeighbourTSP`, `FarthestInsertionTSP`). -/
structure TspAlgos where
  bruteForce : List Nat → Nat → List Int → List Nat
  nearestNeighbour : List Nat → Nat → List Int → List Nat
  farthestInsertion : List Nat → Nat → List Int → List Nat

/-- The chained conditional of `HandleRequest` (lines 223-239) choosing the
heuristic for one component. -/
def tourForComponent (algos : TspAlgos) (rp : RouteParameters) (n : Nat)
    (table : List Int) (comp : List Nat) : List Nat :=
  if rp.tsp_algo == "BF" && decide (rp.coordinates.length < BF_MAX_FEASABLE) then
    algos.bruteForce comp n table
  else if rp.tsp_algo == "NN" then
    algos.nearestNeighbour comp n table
  else if rp.tsp_algo == "FI" then
    algos.farthestInsertion comp n table
  else
    algos.farthestInsertion comp n table

/-- The same branch structure, abstracted to name which heuristic is chosen. -/
def selectAlgo (tsp_algo : String) (total_waypoints : Nat) : Algo :=
  if tsp_algo == "BF" && decide (total_waypoints < BF_MAX_FEASABLE) then Algo.BF
  else if tsp_algo == "NN" then Algo.NN
  else if tsp_algo == "FI" then Algo.FI
  else Algo.FI

def runAlgo (a : Algo) (algos : TspAlgos) (comp : List Nat) (n : Nat)
    (table : List Int) : List Nat :=
  match a with
  | Algo.BF => algos.bruteForce comp n table
  | Algo.NN => algos.nearestNeighbour comp n table
  | Algo.FI => algos.farthestInsertion comp n table

/-- Loop of `HandleRequest` (lines 218-241): one tour pushed per component of
size greater than one. -/
def dispatchTours (algos : TspAlgos) (rp : RouteParameters) (n : Nat)
    (table : List Int) (components : List (List Nat)) : List (List Nat) :=
  components.foldl
    (fun acc comp =>
      if decide (1 < comp.length) then
        acc ++ [tourForComponent algos rp n table comp]
      else acc)
    []

theorem dispatchTours_eq (algos : TspAlgos) (rp : RouteParameters) (n : Nat)
    (table : List Int) (components : List (List Nat)) :
    dispatchTours algos rp n table components =
      (components.filter (fun c => decide (1 < c.length))).map
        (tourForComponent algos rp n table) := by
  have key : ∀ (cs : List (List Nat)) (acc : List (List Nat)),
      cs.foldl
        (fun acc comp =>
          if decide (1 < comp.length) then
            acc ++ [tourForComponent algos rp n table comp]
          else acc) acc =
        acc ++ (cs.filter (fun c => decide (1 < c.length))).map
          (tourForComponent algos rp n table) := by
    intro cs
    induction cs with
    | nil => intro acc; simp
    | cons c cs ih =>
      intro acc
      simp only [List.foldl_cons, List.filter_cons]
      by_cases hc : 1 < c.length
      · rw [if_pos (decide_eq_true hc), if_pos (decide_eq_true hc), ih]
        simp
      · rw [if_neg, if_neg, ih]
        · simp [hc]
        · simp [hc]
  simpa [dispatchTours] using key components []

theorem selectAlgo_spec (s : String) (total : Nat) :
    (selectAlgo s total = Algo.BF ↔ (s = "BF" ∧ total < BF_MAX_FEASABLE)) ∧
    (selectAlgo s total = Algo.NN ↔ s = "NN") ∧
    (selectAlgo s total = Algo.FI ↔
      (s ≠ "NN" ∧ (s ≠ "BF" ∨ BF_MAX_FEASABLE ≤ total))) := by
  have hBN : ("BF" : String) ≠ "NN" := by decide
  have hBF : ("BF" : String) ≠ "FI" := by decide
  have hNF : ("NN" : String) ≠ "FI" := by decide
  unfold selectAlgo
  by_cases h1 : s = "BF" <;> by_cases h2 : s = "NN" <;> by_cases h3 : s = "FI" <;>
    by_cases h4 : total < BF_MAX_FEASABLE <;>
    simp_all [BF_MAX_FEASABLE]
  rw [if_neg (by omega)]
  simp

/-- C2: for a component of size at least two, brute force runs exactly when
`tsp_algo = "BF"` and the total request waypoint count is below 10; `"NN"`
selects nearest neighbour; `"FI"`, any other value, or an infeasible `"BF"`
request selects farthest insertion; components of size at most one are skipped. -/
theorem heuristic_selection (algos : TspAlgos) (rp : RouteParameters) (n : Nat)
    (table : List Int) (comp : List Nat) (s : String) (total : Nat)
    (components : List (List Nat)) :
    (tourForComponent algos rp n table comp =
      runAlgo (selectAlgo rp.tsp_algo rp.coordinates.length) algos comp n table) ∧
    (selectAlgo s total = Algo.BF ↔ (s = "BF" ∧ total < BF_MAX_FEASABLE)) ∧
    (selectAlgo s total = Algo.NN ↔ s = "NN") ∧
    (selectAlgo s total = Algo.FI ↔
      (s ≠ "NN" ∧ (s ≠ "BF" ∨ BF_MAX_FEASABLE ≤ total))) ∧
    (dispatchTours algos rp n table components =
      (components.filter (fun c => decide (1 < c.length))).map
        (tourForComponent algos rp n table)) := by
  refine ⟨?_, (selectAlgo_spec s total).1, (selectAlgo_spec s total).2.1,
    (selectAlgo_spec s total).2.2, dispatchTours_eq algos rp n table components⟩
  unfold tourForComponent selectAlgo runAlgo
  split_ifs <;> rfl

/-- C7: the decoded client hint is reused, skipping the nearest-neighbour
search, exactly when the checksum matches, a hint entry exists and is
non-empty, and the decoded PhantomNode is valid for the current network;
otherwise the slot is filled by searching. -/
theorem hint_reuse_iff (facade : Facade) (rp : RouteParameters) (i : Nat) :
    ((∃ p, resolveSlotR facade rp i = Resolution.fromHint p) ↔
      (rp.check_sum = facade.checkSum ∧ i < rp.hints.length ∧
        rp.hints.getD i "" ≠ "" ∧
        (facade.decodeFromBase64 (rp.hints.getD i "")).is_valid
          facade.numberOfNodes = true)) ∧
    (resolveSlotR facade rp i =
        Resolution.fromHint (facade.decodeFromBase64 (rp.hints.getD i "")) ∨
      resolveSlotR facade rp i =
        Resolution.fromSearch (searchResolve facade rp i)) := by
  simp only [resolveSlotR]
  split_ifs with h1 h2
  · have h1' := h1
    simp only [Bool.and_eq_true, beq_iff_eq, decide_eq_true_eq, Bool.not_eq_true',
      beq_eq_false_iff_ne, ne_eq] at h1'
    obtain ⟨⟨hcs, hlen⟩, hne⟩ := h1'
    refine ⟨⟨fun _ => ⟨hcs, hlen, hne, h2⟩, fun _ => ⟨_, rfl⟩⟩, Or.inl rfl⟩
  · refine ⟨⟨fun hp => ?_, fun hc => ?_⟩, Or.inr rfl⟩
    · obtain ⟨p, hp⟩ := hp
      exact hp.elim
    · exact absurd hc.2.2.2 h2
  · refine ⟨⟨fun hp => ?_, fun hc => ?_⟩, Or.inr rfl⟩
    · obtain ⟨p, hp⟩ := hp
      exact hp.elim
    · refine absurd ?_ h1
      simp only [Bool.and_eq_true, beq_iff_eq, decide_eq_true_eq, Bool.not_eq_true',
        beq_eq_false_iff_ne, ne_eq]
      exact ⟨⟨hc.1, hc.2.1⟩, hc.2.2.1⟩

/-- Modelled from the spec: result of the external Tarjan SCC run
(`TarjanSCC` over `MatrixGraphWrapper`, outside `src/`): a component count
and a component id for each location; its contract (every id below the
count, every component discovered non-empty) enters as hypotheses. -/
structure SCCResult where
  numComponents : Nat
  componentId : Nat → Nat

/-- One step of the bucket-filling loop of `SplitUnaccessibleLocations`
(line 122): `components[scc.get_component_id(i)].push_back(i)`. -/
def bucketStep (g : Nat → Nat) (comps : List (List Nat)) (i : Nat) :
    List (List Nat) :=
  comps.set (g i) ((comps.getD (g i) []) ++ [i])

/-- `SplitUnaccessibleLocations` (lines 108-124): run Tarjan SCC on the matrix
graph, create one empty bucket per component, then append every location to
the bucket of its component id. -/
def SplitUnaccessibleLocations (tarjan : List Int → Nat → SCCResult)
    (number_of_locations : Nat) (result_table : List Int) : List (List Nat) :=
  (List.range number_of_locations).foldl
    (bucketStep (tarjan result_table number_of_locations).componentId)
    (List.replicate (tarjan result_table number_of_locations).numComponents [])

/-- `INVALID_EDGE_WEIGHT`: the unreachable sentinel, the maximal `int` edge
weight. -/
def INVALID_EDGE_WEIGHT : Int := 2147483647

/-- Value of `*std::max_element(result_table.begin(), result_table.end())`
for a non-empty table (line 204). -/
def maxEntry (t : List Int) : Int := t.foldl max (t.headD 0)

/-- Branch at lines 202-213 of `HandleRequest`: split into SCCs when the
maximal table entry is the sentinel, otherwise a single component
`0, 1, ..., N-1` filled by `std::iota`. -/
def computeComponents (tarjan : List Int → Nat → SCCResult)
    (result_table : List Int) (number_of_locations : Nat) : List (List Nat) :=
  if maxEntry result_table == INVALID_EDGE_WEIGHT then
    SplitUnaccessibleLocations tarjan number_of_locations result_table
  else
    [List.range number_of_locations]

theorem bucketFold_length (g : Nat → Nat) (l : List Nat)
    (comps : List (List Nat)) :
    (l.foldl (bucketStep g) comps).length = comps.length := by
  induction l generalizing comps with
  | nil => rfl
  | cons i l ih => rw [List.foldl_cons, ih]; simp [bucketStep]

theorem bucketFold_getD (g : Nat → Nat) (l : List Nat) :
    ∀ (comps : List (List Nat)) (c : Nat), c < comps.length →
      (l.foldl (bucketStep g) comps).getD c [] =
        comps.getD c [] ++ l.filter (fun i => g i == c) := by
  induction l with
  | nil => intro comps c _; simp
  | cons i l ih =>
    intro comps c hc
    rw [List.foldl_cons, List.filter_cons]
    have hlen : c < (bucketStep g comps i).length := by
      simpa [bucketStep] using hc
    rw [ih _ _ hlen]
    by_cases hgi : g i = c
    · subst hgi
      rw [if_pos (by simp)]
      have hset : (bucketStep g comps i).getD (g i) [] =
          comps.getD (g i) [] ++ [i] := by
        unfold bucketStep
        rw [List.getD_eq_getElem?_getD, List.getElem?_set_self, Option.getD_some]
        exact hc
      rw [hset]
      simp
    · rw [if_neg (by simpa using hgi)]
      have hset : (bucketStep g comps i).getD c [] = comps.getD c [] := by
        unfold bucketStep
        rw [List.getD_eq_getElem?_getD, List.getElem?_set_ne hgi,
          ← List.getD_eq_getElem?_getD]
      rw [hset]

theorem split_eq_filter (tarjan : List Int → Nat → SCCResult) (n : Nat)
    (table : List Int) :
    SplitUnaccessibleLocations tarjan n table =
      (List.range (tarjan table n).numComponents).map
        (fun c => (List.range n).filter
          (fun i => (tarjan table n).componentId i == c)) := by
  have hlen : (SplitUnaccessibleLocations tarjan n table).length =
      (tarjan table n).numComponents := by
    unfold SplitUnaccessibleLocations
    rw [bucketFold_length]
    simp
  apply List.ext_getElem
  · rw [hlen]; simp
  · intro c h1 h2
    have hc : c < (tarjan table n).numComponents := by simpa using h2
    rw [← List.getD_eq_getElem _ [] h1]
    unfold SplitUnaccessibleLocations
    rw [bucketFold_getD _ _ _ _ (by simpa using hc)]
    simp

theorem mem_filter_range (g : Nat → Nat) (n c i : Nat) :
    (i ∈ (List.range n).filter (fun j => g j == c)) ↔ (i < n ∧ g i = c) := by
  simp [List.mem_filter, List.mem_range]

/-- C4: for every request reaching the partitioning stage, the components
produced (fast path or SCC path) strictly partition `{0..N-1}`: all
non-empty, pairwise disjoint, every index below N in exactly one component,
and nothing else in any component. -/
theorem partition_strict (tarjan : List Int → Nat → SCCResult)
    (table : List Int) (n : Nat)
    (hn : 0 < n)
    (hid : ∀ i, i < n →
      (tarjan table n).componentId i < (tarjan table n).numComponents)
    (hsurj : ∀ c, c < (tarjan table n).numComponents →
      ∃ i, i < n ∧ (tarjan table n).componentId i = c) :
    (∀ comp ∈ computeComponents tarjan table n, comp ≠ []) ∧
    (∀ i, (∃ comp ∈ computeComponents tarjan table n, i ∈ comp) ↔ i < n) ∧
    (∀ i, i < n →
      (computeComponents tarjan table n).countP
        (fun comp => decide (i ∈ comp)) = 1) ∧
    (computeComponents tarjan table n).Pairwise
      (fun a b => ∀ x, x ∈ a → x ∉ b) := by
  unfold computeComponents
  split_ifs with hs
  · rw [split_eq_filter]
    refine ⟨?_, ?_, ?_, ?_⟩
    · intro comp hcomp
      obtain ⟨c, hcr, rfl⟩ := List.mem_map.mp hcomp
      obtain ⟨i, hi, hgi⟩ := hsurj c (List.mem_range.mp hcr)
      exact List.ne_nil_of_mem ((mem_filter_range _ n c i).mpr ⟨hi, hgi⟩)
    · intro i
      constructor
      · rintro ⟨comp, hcomp, hi⟩
        obtain ⟨c, _, rfl⟩ := List.mem_map.mp hcomp
        exact ((mem_filter_range _ n c i).mp hi).1
      · intro hi
        refine ⟨_, List.mem_map_of_mem _
          (List.mem_range.mpr (hid i hi)), ?_⟩
        exact (mem_filter_range _ n _ i).mpr ⟨hi, rfl⟩
    · intro i hi
      rw [List.countP_map]
      have hcong : (List.range (tarjan table n).numComponents).countP
            ((fun comp => decide (i ∈ comp)) ∘ (fun c => (List.range n).filter
              (fun j => (tarjan table n).componentId j == c))) =
          (List.range (tarjan table n).numComponents).countP
            (fun c => c == (tarjan table n).componentId i) := by
        apply List.countP_congr
        intro c _
        simp only [Function.comp_apply]
        by_cases h : c = (tarjan table n).componentId i
        · subst h
          simp only [beq_self_eq_true, iff_true]
          exact decide_eq_true ((mem_filter_range _ n _ i).mpr ⟨hi, rfl⟩)
        · have hb : (c == (tarjan table n).componentId i) = false :=
            beq_eq_false_iff_ne.mpr h
          rw [hb, decide_eq_false
            (fun hm => h (((mem_filter_range _ n c i).mp hm).2).symm)]
      rw [hcong]
      exact List.count_eq_one_of_mem (List.nodup_range _)
        (List.mem_range.mpr (hid i hi))
    · rw [List.pairwise_map]
      refine List.Pairwise.imp ?_ (List.pairwise_lt_range _)
      intro a b hab x hxa hxb
      have h1 := ((mem_filter_range _ n a x).mp hxa).2
      have h2 := ((mem_filter_range _ n b x).mp hxb).2
      omega
  · refine ⟨?_, ?_, ?_, ?_⟩
    · intro comp hcomp
      rw [List.mem_singleton] at hcomp
      subst hcomp
      simpa [List.range_eq_nil] using Nat.pos_iff_ne_zero.mp hn
    · intro i
      simp [List.mem_range]
    · intro i hi
      simp [List.countP_cons, List.mem_range, hi]
    · simp

theorem le_foldl_max (l : List Int) : ∀ a : Int, a ≤ l.foldl max a := by
  induction l with
  | nil => intro a; exact le_refl a
  | cons x l ih =>
    intro a
    exact le_trans (le_max_left a x) (ih (max a x))

theorem mem_le_foldl_max (l : List Int) :
    ∀ (a x : Int), x ∈ l → x ≤ l.foldl max a := by
  induction l with
  | nil => intro a x hx; cases hx
  | cons y l ih =>
    intro a x hx
    rcases List.mem_cons.mp hx with h | h
    · subst h
      exact le_trans (le_max_right a x) (le_foldl_max l (max a x))
    · exact ih (max a y) x h

theorem foldl_max_cases (l : List Int) :
    ∀ a : Int, l.foldl max a = a ∨ l.foldl max a ∈ l := by
  induction l with
  | nil => intro a; exact Or.inl rfl
  | cons y l ih =>
    intro a
    rcases ih (max a y) with h | h
    · rcases max_choice a y with hm | hm
      · rw [List.foldl_cons, h, hm]; exact Or.inl rfl
      · rw [List.foldl_cons, h, hm]; exact Or.inr (List.mem_cons_self y l)
    · exact Or.inr (List.mem_cons_of_mem y h)

theorem headD_mem (l : List Int) (hne : l ≠ []) (d : Int) : l.headD d ∈ l := by
  cases l with
  | nil => exact absurd rfl hne
  | cons x l => exact List.mem_cons_self x l

theorem maxEntry_mem (t : List Int) (hne : t ≠ []) : maxEntry t ∈ t := by
  rcases foldl_max_cases t (t.headD 0) with h | h
  · rw [maxEntry, h]; exact headD_mem t hne 0
  · exact h

theorem maxEntry_eq_sentinel_iff (t : List Int) (hne : t ≠ [])
    (hb : ∀ e ∈ t, e ≤ INVALID_EDGE_WEIGHT) :
    maxEntry t = INVALID_EDGE_WEIGHT ↔ INVALID_EDGE_WEIGHT ∈ t := by
  constructor
  · intro h
    rw [← h]
    exact maxEntry_mem t hne
  · intro h
    exact le_antisymm (hb _ (maxEntry_mem t hne)) (mem_le_foldl_max t (t.headD 0) _ h)

/-- C5: when no table entry equals the unreachable sentinel, the fast path
yields the single component `0,...,N-1` and the result does not depend on the
SCC oracle (no SCC computation happens); when some entry is the sentinel, the
SCC-based `SplitUnaccessibleLocations` path is taken. -/
theorem fast_path_iff (tarjan1 tarjan2 : List Int → Nat → SCCResult) (n : Nat)
    (table : List Int) (hne : table ≠ [])
    (hb : ∀ e ∈ table, e ≤ INVALID_EDGE_WEIGHT) :
    ((∀ e ∈ table, e ≠ INVALID_EDGE_WEIGHT) →
      computeComponents tarjan1 table n = [List.range n] ∧
        computeComponents tarjan2 table n = [List.range n]) ∧
    (INVALID_EDGE_WEIGHT ∈ table →
      computeComponents tarjan1 table n =
        SplitUnaccessibleLocations tarjan1 n table) := by
  constructor
  · intro hno
    have hmax : ¬(maxEntry table = INVALID_EDGE_WEIGHT) := by
      intro h
      exact absurd rfl (hno _ ((maxEntry_eq_sentinel_iff table hne hb).mp h))
    constructor <;>
      · unfold computeComponents
        rw [if_neg (by simpa using hmax)]
  · intro hmem
    have hmax := (maxEntry_eq_sentinel_iff table hne hb).mpr hmem
    unfold computeComponents
    rw [if_pos (by simpa using hmax)]

def noPhantom : PhantomNode := ⟨0, 0⟩

/-- Lookup `phantom_node_vector[n][0]` as used by `ComputeRoute`
(lines 158 and 162). -/
def firstPhantom (pv : List (List PhantomNode)) (n : Nat) : PhantomNode :=
  (pv.getD n []).getD 0 noPhantom

/-- The `segment_end_coordinates` list built by `ComputeRoute`
(lines 154-163): one leg per consecutive trip pair, then the wrap-around leg
from the last location back to the first. -/
def legsOf (pv : List (List PhantomNode)) (trip : List Nat) :
    List (PhantomNode × PhantomNode) :=
  ((trip.zip trip.tail).map
    (fun ab => (firstPhantom pv ab.1, firstPhantom pv ab.2))) ++
  [(firstPhantom pv ((trip.getLast?).getD 0), firstPhantom pv (trip.headD 0))]

/-- C8: for a tour of `k ≥ 2` indices, exactly `k` leg endpoint pairs are
built, the `i`-th (for `i < k-1`) from the PhantomNode of `tour[i]` to that of
`tour[i+1]`, and the final pair from `tour[k-1]` back to `tour[0]`. -/
theorem stitcher_legs (pv : List (List PhantomNode)) (trip : List Nat)
    (h2 : 2 ≤ trip.length) :
    (legsOf pv trip).length = trip.length ∧
    (∀ i, i + 1 < trip.length →
      (legsOf pv trip).getD i (noPhantom, noPhantom) =
        (firstPhantom pv (trip.getD i 0),
          firstPhantom pv (trip.getD (i + 1) 0))) ∧
    (legsOf pv trip).getD (trip.length - 1) (noPhantom, noPhantom) =
      (firstPhantom pv ((trip.getLast?).getD 0),
        firstPhantom pv (trip.headD 0)) := by
  have hzip : (trip.zip trip.tail).length = trip.length - 1 := by
    rw [List.length_zip, List.length_tail]
    omega
  have hmap : ((trip.zip trip.tail).map
      (fun ab => (firstPhantom pv ab.1, firstPhantom pv ab.2))).length =
      trip.length - 1 := by
    rw [List.length_map, hzip]
  refine ⟨?_, ?_, ?_⟩
  · rw [legsOf, List.length_append, hmap]
    simp
    omega
  · intro i hi
    have hiA : i < ((trip.zip trip.tail).map
        (fun ab => (firstPhantom pv ab.1, firstPhantom pv ab.2))).length := by
      rw [hmap]; omega
    have hb1 : i < trip.length := by omega
    have hb2 : i + 1 < trip.length := by omega
    rw [List.getD_eq_getElem?_getD, legsOf, List.getElem?_append, if_pos hiA,
      List.getElem?_map,
      List.getElem?_eq_getElem (show i < (trip.zip trip.tail).length by
        rw [hzip]; omega),
      List.getElem_zip, List.getElem_tail,
      List.getD_eq_getElem trip 0 hb1, List.getD_eq_getElem trip 0 hb2]
    rfl
  · rw [legsOf, List.getD_eq_getElem?_getD,
      List.getElem?_append_right hmap.le, hmap, Nat.sub_self]
    rfl

/-- Shortest-path engine oracle (`SearchEngine`, outside `src/`): the distance
table builder and the composite shortest-path query, the latter returning the
route's `shortest_path_length`. -/
structure SearchEngine where
  distanceTable : List (List PhantomNode) → List Int
  shortestPath : List (PhantomNode × PhantomNode) → Bool → Int

/-- `InternalRouteResult`: the fields the plugin reads and writes. -/
structure InternalRouteResult where
  segment_end_coordinates : List (PhantomNode × PhantomNode)
  shortest_path_length : Int
deriving DecidableEq

/-- Single-trip `ComputeRoute` (lines 149-165): build the leg list, then issue
the composite shortest-path query with the caller's U-turn policy. -/
def ComputeRouteOne (engine : SearchEngine) (pv : List (List PhantomNode))
    (rp : RouteParameters) (trip : List Nat) : InternalRouteResult :=
  { segment_end_coordinates := legsOf pv trip,
    shortest_path_length := engine.shortestPath (legsOf pv trip) rp.uturns }

/-- Vector `ComputeRoute` (lines 167-177): for each trip, run the single-trip
`ComputeRoute` (which already issues the shortest-path query, line 164), push
the result, and then issue the shortest-path query again on the pushed
result's endpoints (line 175).  The second output component logs, in order,
the endpoint list of every `shortest_path` invocation. -/
def ComputeRouteAll (engine : SearchEngine) (pv : List (List PhantomNode))
    (rp : RouteParameters) (trips : List (List Nat)) :
    List InternalRouteResult × List (List (PhantomNode × PhantomNode)) :=
  trips.foldl
    (fun acc trip =>
      let one := ComputeRouteOne engine pv rp trip
      let redo : InternalRouteResult :=
        { segment_end_coordinates := one.segment_end_coordinates,
          shortest_path_length :=
            engine.shortestPath one.segment_end_coordinates rp.uturns }
      (acc.1 ++ [redo], acc.2 ++ [legsOf pv trip, one.segment_end_coordinates]))
    ([], [])

theorem ComputeRouteAll_spec (engine : SearchEngine)
    (pv : List (List PhantomNode)) (rp : RouteParameters)
    (trips : List (List Nat)) :
    (ComputeRouteAll engine pv rp trips).1 =
      trips.map (ComputeRouteOne engine pv rp) ∧
    ((ComputeRouteAll engine pv rp trips).2).length = 2 * trips.length := by
  have key : ∀ (ts : List (List Nat))
      (acc : List InternalRouteResult)
      (log : List (List (PhantomNode × PhantomNode))),
      ts.foldl
        (fun acc trip =>
          let one := ComputeRouteOne engine pv rp trip
          let redo : InternalRouteResult :=
            { segment_end_coordinates := one.segment_end_coordinates,
              shortest_path_length :=
                engine.shortestPath one.segment_end_coordinates rp.uturns }
          (acc.1 ++ [redo],
            acc.2 ++ [legsOf pv trip, one.segment_end_coordinates]))
        (acc, log) =
        (acc ++ ts.map (ComputeRouteOne engine pv rp),
          log ++ ts.flatMap (fun trip => [legsOf pv trip, legsOf pv trip])) := by
    intro ts
    induction ts with
    | nil => intro acc log; simp
    | cons t ts ih =>
      intro acc log
      rw [List.foldl_cons]
      simp only []
      rw [ih]
      simp [ComputeRouteOne]
  constructor
  · rw [ComputeRouteAll, key trips [] []]
    simp
  · rw [ComputeRouteAll, key trips [] []]
    simp only [List.nil_append]
    rw [List.length_flatMap]
    have hfun : (List.length ∘ fun trip =>
        ([legsOf pv trip, legsOf pv trip] :
          List (List (PhantomNode × PhantomNode)))) = fun _ => 2 :=
      funext (fun t => rfl)
    rw [hfun]
    simp [Nat.mul_comm]

/-- Values stored in the JSON result object by this plugin. -/
inductive JVal where
  | num : Int → JVal
  | arr : List Int → JVal
deriving DecidableEq

/-- `SetLocPermutationOutput` (lines 126-131): writes the location permutation
under the key `"loc_permutation"`.  Present in the plugin but never invoked by
`HandleRequest`. -/
def SetLocPermutationOutput (loc_permutation : List Int)
    (json_result : List (String × JVal)) : List (String × JVal) :=
  json_result ++ [("loc_permutation", JVal.arr loc_permutation)]

/-- `SetDistanceOutput` (lines 133-135). -/
def SetDistanceOutput (distance : Int) (json_result : List (String × JVal)) :
    List (String × JVal) :=
  json_result ++ [("distance", JVal.num distance)]

/-- `SetRuntimeOutput` (lines 136-138); the float milliseconds value is
abstracted to an oracle integer. -/
def SetRuntimeOutput (runtime : Int) (json_result : List (String × JVal)) :
    List (String × JVal) :=
  json_result ++ [("runtime", JVal.num runtime)]

/-- Oracle bundle for one request: the facade, the search engine, the TSP
heuristics, the Tarjan SCC run, the JSON descriptor used by `SetGeometry`
(lines 140-147), and the measured runtime. -/
structure Env where
  facade : Facade
  engine : SearchEngine
  algos : TspAlgos
  tarjan : List Int → Nat → SCCResult
  runDescriptor : RouteParameters → InternalRouteResult → List (String × JVal)
  runtimeMs : Int

/-- `SetGeometry` (lines 140-147): delegate rendering of one route to the
external JSON descriptor, which appends its own key/value pairs. -/
def SetGeometry (env : Env) (rp : RouteParameters)
    (min_route : InternalRouteResult) (json_result : List (String × JVal)) :
    List (String × JVal) :=
  json_result ++ env.runDescriptor rp min_route

/-- Modelled from the spec: `BasePlugin::check_all_coordinates` (outside
`src/`) performs basic per-coordinate validation; the outcome per coordinate
is the facade oracle's `checkCoordinate`. -/
def check_all_coordinates (facade : Facade) (coords : List Coordinate) : Bool :=
  coords.all facade.checkCoordinate

/-- Stage outputs of `HandleRequest` (lines 179-258), in pipeline order. -/
def pipelinePhantoms (env : Env) (rp : RouteParameters) :
    List (List PhantomNode) :=
  GetPhantomNodes env.facade rp

def pipelineTable (env : Env) (rp : RouteParameters) : List Int :=
  env.engine.distanceTable (pipelinePhantoms env rp)

def pipelineComponents (env : Env) (rp : RouteParameters) : List (List Nat) :=
  computeComponents env.tarjan (pipelineTable env rp)
    (pipelinePhantoms env rp).length

def pipelineTours (env : Env) (rp : RouteParameters) : List (List Nat) :=
  dispatchTours env.algos rp (pipelinePhantoms env rp).length
    (pipelineTable env rp) (pipelineComponents env rp)

def pipelineStitch (env : Env) (rp : RouteParameters) :
    List InternalRouteResult × List (List (PhantomNode × PhantomNode)) :=
  ComputeRouteAll env.engine (pipelinePhantoms env rp) rp
    (pipelineTours env rp)

def routeOf (env : Env) (rp : RouteParameters) : List InternalRouteResult :=
  (pipelineStitch env rp).1

/-- The `dist` accumulation of lines 248-252. -/
def distOf (env : Env) (rp : RouteParameters) : Int :=
  (routeOf env rp).foldl (fun d r => d + r.shortest_path_length) 0

/-- The JSON entries written before `SetDistanceOutput`: the runtime entry
(line 245) then one descriptor rendering per route (line 251). -/
def geomJson (env : Env) (rp : RouteParameters) : List (String × JVal) :=
  (routeOf env rp).foldl (fun j r => SetGeometry env rp r j)
    (SetRuntimeOutput env.runtimeMs [])

/-- `HandleRequest` (lines 179-258): validate coordinates, resolve phantom
nodes, build the distance table, partition, run the TSP loop, stitch, and
emit runtime, geometry and distance. -/
def HandleRequest (env : Env) (rp : RouteParameters) :
    Nat × List (String × JVal) :=
  if !(check_all_coordinates env.facade rp.coordinates) then
    (400, [])
  else if (pipelineTable env rp).length == 0 then
    (400, [])
  else
    (200, SetDistanceOutput (distOf env rp) (geomJson env rp))

theorem HandleRequest_ok (env : Env) (rp : RouteParameters)
    (h1 : check_all_coordinates env.facade rp.coordinates = true)
    (h2 : (pipelineTable env rp).length ≠ 0) :
    HandleRequest env rp =
      (200, SetDistanceOutput (distOf env rp) (geomJson env rp)) := by
  unfold HandleRequest
  rw [if_neg (by rw [h1]; simp), if_neg (by simpa using h2)]

/-- C3: `HandleRequest` returns 400 with an empty result when coordinate
validation fails, 400 with an empty result when the distance table is empty,
and 200 in every other case (disconnected components included); no other
status occurs. -/
theorem status_codes (env : Env) (rp : RouteParameters) :
    ((HandleRequest env rp).1 = 200 ∨ (HandleRequest env rp).1 = 400) ∧
    (check_all_coordinates env.facade rp.coordinates = false →
      HandleRequest env rp = (400, [])) ∧
    (check_all_coordinates env.facade rp.coordinates = true →
      (pipelineTable env rp).length = 0 → HandleRequest env rp = (400, [])) ∧
    (check_all_coordinates env.facade rp.coordinates = true →
      (pipelineTable env rp).length ≠ 0 →
      (HandleRequest env rp).1 = 200) := by
  by_cases h1 : check_all_coordinates env.facade rp.coordinates <;>
    by_cases h2 : (pipelineTable env rp).length = 0 <;>
    simp [HandleRequest, h1, h2]

theorem pipelineTours_eq (env : Env) (rp : RouteParameters) :
    pipelineTours env rp =
      ((pipelineComponents env rp).filter
        (fun c => decide (1 < c.length))).map
        (tourForComponent env.algos rp (pipelinePhantoms env rp).length
          (pipelineTable env rp)) :=
  dispatchTours_eq env.algos rp (pipelinePhantoms env rp).length
    (pipelineTable env rp) (pipelineComponents env rp)

/-- C9: the reported total distance is the sum, over exactly the components of
size at least two (those producing a tour), of that component's computed route
cost; singleton components produce no tour and contribute 0, so a request with
only singleton components reports distance 0. -/
theorem aggregation_law (env : Env) (rp : RouteParameters)
    (h1 : check_all_coordinates env.facade rp.coordinates = true)
    (h2 : (pipelineTable env rp).length ≠ 0) :
    ((HandleRequest env rp).2.getLast? = some ("distance", JVal.num
      (((pipelineComponents env rp).filter
        (fun c => decide (1 < c.length))).foldl
        (fun d comp => d + env.engine.shortestPath
          (legsOf (pipelinePhantoms env rp)
            (tourForComponent env.algos rp (pipelinePhantoms env rp).length
              (pipelineTable env rp) comp)) rp.uturns) 0))) ∧
    ((pipelineTours env rp).length =
      ((pipelineComponents env rp).filter
        (fun c => decide (1 < c.length))).length) ∧
    ((pipelineComponents env rp).all (fun c => decide (c.length ≤ 1)) = true →
      (HandleRequest env rp).2.getLast? =
        some ("distance", JVal.num 0)) := by
  have hroute : routeOf env rp = (pipelineTours env rp).map
      (ComputeRouteOne env.engine (pipelinePhantoms env rp) rp) :=
    (ComputeRouteAll_spec env.engine (pipelinePhantoms env rp) rp
      (pipelineTours env rp)).1
  have hdist : distOf env rp =
      ((pipelineComponents env rp).filter
        (fun c => decide (1 < c.length))).foldl
        (fun d comp => d + env.engine.shortestPath
          (legsOf (pipelinePhantoms env rp)
            (tourForComponent env.algos rp (pipelinePhantoms env rp).length
              (pipelineTable env rp) comp)) rp.uturns) 0 := by
    rw [distOf, hroute, List.foldl_map, pipelineTours_eq, List.foldl_map]
    rfl
  have hlast : (HandleRequest env rp).2.getLast? =
      some ("distance", JVal.num (distOf env rp)) := by
    rw [HandleRequest_ok env rp h1 h2]
    show (SetDistanceOutput (distOf env rp) (geomJson env rp)).getLast? = _
    rw [SetDistanceOutput, List.getLast?_concat]
  refine ⟨?_, ?_, ?_⟩
  · rw [hlast, hdist]
  · rw [pipelineTours_eq, List.length_map]
  · intro hall
    have hfilter : (pipelineComponents env rp).filter
        (fun c => decide (1 < c.length)) = [] := by
      rw [List.filter_eq_nil_iff]
      intro c hc
      have := List.all_eq_true.mp hall c hc
      simp at this ⊢
      omega
    rw [hlast, hdist, hfilter]
    rfl

theorem mem_geometry_foldl (env : Env) (rp : RouteParameters)
    (routes : List InternalRouteResult) :
    ∀ (init : List (String × JVal)) (kv : String × JVal),
      kv ∈ routes.foldl (fun j r => SetGeometry env rp r j) init →
      kv ∈ init ∨ ∃ r ∈ routes, kv ∈ env.runDescriptor rp r := by
  induction routes with
  | nil => intro init kv h; exact Or.inl h
  | cons r rs ih =>
    intro init kv h
    rw [List.foldl_cons] at h
    rcases ih _ kv h with h1 | ⟨r1, hr1, hkv⟩
    · rw [SetGeometry] at h1
      rcases List.mem_append.mp h1 with h2 | h2
      · exact Or.inl h2
      · exact Or.inr ⟨r, List.mem_cons_self r rs, h2⟩
    · exact Or.inr ⟨r1, List.mem_cons_of_mem r hr1, hkv⟩

/-- C10: the result object never contains the `"loc_permutation"` key —
`SetLocPermutationOutput` is never invoked on the request path — and every
emitted key is `"runtime"`, `"distance"`, or a descriptor-rendered geometry
entry. -/
theorem no_loc_permutation (env : Env) (rp : RouteParameters)
    (hdesc : ∀ r : InternalRouteResult, ∀ kv ∈ env.runDescriptor rp r,
      kv.1 ≠ "loc_permutation") :
    (∀ kv ∈ (HandleRequest env rp).2, kv.1 ≠ "loc_permutation") ∧
    (∀ kv ∈ (HandleRequest env rp).2,
      kv.1 = "runtime" ∨ kv.1 = "distance" ∨
        ∃ r : InternalRouteResult, kv ∈ env.runDescriptor rp r) := by
  have hmem : ∀ kv ∈ (HandleRequest env rp).2,
      kv = ("runtime", JVal.num env.runtimeMs) ∨
      kv = ("distance", JVal.num (distOf env rp)) ∨
      ∃ r : InternalRouteResult, kv ∈ env.runDescriptor rp r := by
    intro kv hkv
    unfold HandleRequest at hkv
    split_ifs at hkv
    · cases hkv
    · cases hkv
    · rw [SetDistanceOutput] at hkv
      rcases List.mem_append.mp hkv with h1 | h1
      · rw [geomJson] at h1
        rcases mem_geometry_foldl env rp (routeOf env rp) _ kv h1 with h2 | ⟨r, _, h2⟩
        · rw [SetRuntimeOutput] at h2
          simp at h2
          exact Or.inl h2
        · exact Or.inr (Or.inr ⟨r, h2⟩)
      · simp at h1
        exact Or.inr (Or.inl h1)
  constructor
  · intro kv hkv
    rcases hmem kv hkv with h | h | ⟨r, h⟩
    · subst h
      show ("runtime" : String) ≠ "loc_permutation"
      decide
    · subst h
      show ("distance" : String) ≠ "loc_permutation"
      decide
    · exact hdesc r kv h
  · intro kv hkv
    rcases hmem kv hkv with h | h | ⟨r, h⟩
    · subst h; exact Or.inl rfl
    · subst h; exact Or.inr (Or.inl rfl)
    · exact Or.inr (Or.inr ⟨r, h⟩)

def resolveSlotR_search_form (facade : Facade) (rp : RouteParameters)
    (i : Nat) :
    resolveSlotR facade rp i =
        Resolution.fromHint (facade.decodeFromBase64 (rp.hints.getD i "")) ∨
      resolveSlotR facade rp i =
        Resolution.fromSearch (searchResolve facade rp i) := by
  simp only [resolveSlotR]
  split_ifs with h1 h2
  · exact Or.inl rfl
  · exact Or.inr rfl
  · exact Or.inr rfl

/-- C6 (amended): resolution yields exactly N PhantomNode slots in input
order, slot i being the resolution of waypoint i; and provided the
nearest-neighbour search returns one or two candidates (as the engine does
when asked for one result on a possibly bidirectional edge), every slot
retains exactly one PhantomNode. -/
theorem resolver_retains_one (facade : Facade) (rp : RouteParameters)
    (hfind : ∀ c : Coordinate, 1 ≤ (facade.incrementalFind c 1).length ∧
      (facade.incrementalFind c 1).length ≤ 2) :
    (GetPhantomNodes facade rp).length = rp.coordinates.length ∧
    (∀ i, i < rp.coordinates.length →
      (GetPhantomNodes facade rp).getD i [] = resolveSlot facade rp i) ∧
    (∀ slot ∈ GetPhantomNodes facade rp, slot.length = 1) := by
  refine ⟨by simp [GetPhantomNodes], ?_, ?_⟩
  · intro i hi
    rw [GetPhantomNodes, List.getD_eq_getElem?_getD, List.getElem?_map,
      List.getElem?_range hi]
    rfl
  · intro slot hslot
    rw [GetPhantomNodes] at hslot
    obtain ⟨i, _, rfl⟩ := List.mem_map.mp hslot
    rcases resolveSlotR_search_form facade rp i with h | h
    · rw [resolveSlot, h]
      rfl
    · rw [resolveSlot, h]
      show (searchResolve facade rp i).length = 1
      obtain ⟨hge, hle⟩ := hfind (rp.coordinates.getD i defaultCoordinate)
      simp only [searchResolve]
      by_cases h2 : 1 <
          (facade.incrementalFind (rp.coordinates.getD i defaultCoordinate)
            1).length
      · rw [if_pos (decide_eq_true h2), List.length_tail]
        omega
      · rw [if_neg (by simpa using h2)]
        omega

/-- Concrete oracle instances used in witnesses and counterexamples. -/
def facadeT (ok : Bool) : Facade :=
  { checkSum := 7, numberOfNodes := 5,
    decodeFromBase64 := fun _ => noPhantom,
    incrementalFind := fun _ _ => [noPhantom],
    checkCoordinate := fun _ => ok }

def tarjanT : List Int → Nat → SCCResult :=
  fun _ _ => { numComponents := 2, componentId := fun i => i % 2 }

def algosT : TspAlgos :=
  { bruteForce := fun comp _ _ => comp,
    nearestNeighbour := fun comp _ _ => comp,
    farthestInsertion := fun comp _ _ => comp }

def engineT (table : List Int) : SearchEngine :=
  { distanceTable := fun _ => table,
    shortestPath := fun legs _ => (legs.length : Int) * 10 }

def envT (ok : Bool) (table : List Int) : Env :=
  { facade := facadeT ok, engine := engineT table, algos := algosT,
    tarjan := tarjanT,
    runDescriptor := fun _ _ => [("route_geometry", JVal.num 1)],
    runtimeMs := 3 }

def rpT (k : Nat) : RouteParameters :=
  { coordinates := List.replicate k defaultCoordinate, hints := [],
    check_sum := 7, tsp_algo := "FI", uturns := false }

/-- Facade whose snap search returns three candidates for every coordinate. -/
def facadeC6 : Facade :=
  { checkSum := 7, numberOfNodes := 5,
    decodeFromBase64 := fun _ => noPhantom,
    incrementalFind := fun _ _ => [⟨0, 0⟩, ⟨1, 1⟩, ⟨2, 2⟩],
    checkCoordinate := fun _ => true }

/-- C6 counterexample: when the nearest-neighbour search returns three
candidates, the code erases only the first one, so the waypoint retains two
PhantomNodes — refuting "exactly one retained regardless of how many
candidates the search returned". -/
theorem resolver_counterexample :
    GetPhantomNodes facadeC6 (rpT 1) = [[⟨1, 1⟩, ⟨2, 2⟩]] ∧
    ¬(∀ slot ∈ GetPhantomNodes facadeC6 (rpT 1), slot.length = 1) := by
  decide

/-- C1: the vector `ComputeRoute` used by `HandleRequest` issues the
composite shortest-path query twice per tour — once inside the single-trip
`ComputeRoute` (line 164) and once more on the pushed result (line 175) — so
on a request producing one tour, two shortest-path invocations occur where
the claim requires exactly one per tour. -/
theorem double_query_per_tour :
    (∀ (engine : SearchEngine) (pv : List (List PhantomNode))
      (rp : RouteParameters) (trips : List (List Nat)),
      ((ComputeRouteAll engine pv rp trips).2).length = 2 * trips.length) ∧
    (pipelineTours (envT true [0, 1, 1, 0]) (rpT 2)).length = 1 ∧
    ((pipelineStitch (envT true [0, 1, 1, 0]) (rpT 2)).2).length = 2 := by
  refine ⟨fun engine pv rp trips =>
    (ComputeRouteAll_spec engine pv rp trips).2, ?_, ?_⟩ <;> decide

theorem heuristic_selection_witness :
    tourForComponent algosT (rpT 2) 2 [0, 1, 1, 0] [0, 1] =
      runAlgo (selectAlgo (rpT 2).tsp_algo (rpT 2).coordinates.length)
        algosT [0, 1] 2 [0, 1, 1, 0] :=
  (heuristic_selection algosT (rpT 2) 2 [0, 1, 1, 0] [0, 1] "FI" 2 [[0, 1]]).1

theorem hint_reuse_witness :
    resolveSlotR (facadeT true) (rpT 1) 0 =
        Resolution.fromHint ((facadeT true).decodeFromBase64
          ((rpT 1).hints.getD 0 "")) ∨
      resolveSlotR (facadeT true) (rpT 1) 0 =
        Resolution.fromSearch (searchResolve (facadeT true) (rpT 1) 0) :=
  (hint_reuse_iff (facadeT true) (rpT 1) 0).2

theorem status_codes_witness :
    (HandleRequest (envT true [0, 1, 1, 0]) (rpT 2)).1 = 200 :=
  (status_codes (envT true [0, 1, 1, 0]) (rpT 2)).2.2.2 (by rfl) (by decide)

theorem partition_strict_witness :
    (computeComponents tarjanT [0, INVALID_EDGE_WEIGHT, INVALID_EDGE_WEIGHT, 0]
      2).countP (fun comp => decide (0 ∈ comp)) = 1 :=
  (partition_strict tarjanT [0, INVALID_EDGE_WEIGHT, INVALID_EDGE_WEIGHT, 0] 2
    (by decide)
    (fun i _ => Nat.mod_lt i (by decide))
    (fun c hc => by
      rcases c with _ | c
      · exact ⟨0, by decide⟩
      rcases c with _ | c
      · exact ⟨1, by decide⟩
      · refine absurd hc ?_
        simp [tarjanT])).2.2.1 0 (by decide)

theorem fast_path_witness :
    computeComponents tarjanT [0, 1, 1, 0] 2 = [List.range 2] :=
  ((fast_path_iff tarjanT tarjanT 2 [0, 1, 1, 0] (by decide)
    (by decide)).1 (by decide)).1

theorem resolver_retains_one_witness :
    (GetPhantomNodes (facadeT true) (rpT 2)).length =
      (rpT 2).coordinates.length :=
  (resolver_retains_one (facadeT true) (rpT 2) (fun c => by
    show 1 ≤ ([noPhantom] : List PhantomNode).length ∧
      ([noPhantom] : List PhantomNode).length ≤ 2
    decide)).1

theorem stitcher_legs_witness :
    2 ≤ ([0, 1] : List Nat).length ∧
    (legsOf [[noPhantom], [⟨1, 1⟩]] [0, 1]).length =
      ([0, 1] : List Nat).length :=
  ⟨by decide, (stitcher_legs [[noPhantom], [⟨1, 1⟩]] [0, 1] (by decide)).1⟩

theorem aggregation_law_witness :
    (HandleRequest (envT true [0, 1, 1, 0]) (rpT 2)).2.getLast? =
      some ("distance", JVal.num
      (((pipelineComponents (envT true [0, 1, 1, 0]) (rpT 2)).filter
        (fun c => decide (1 < c.length))).foldl
        (fun d comp => d + (envT true [0, 1, 1, 0]).engine.shortestPath
          (legsOf (pipelinePhantoms (envT true [0, 1, 1, 0]) (rpT 2))
            (tourForComponent (envT true [0, 1, 1, 0]).algos (rpT 2)
              (pipelinePhantoms (envT true [0, 1, 1, 0]) (rpT 2)).length
              (pipelineTable (envT true [0, 1, 1, 0]) (rpT 2)) comp))
          (rpT 2).uturns) 0)) :=
  (aggregation_law (envT true [0, 1, 1, 0]) (rpT 2) (by rfl) (by decide)).1

theorem no_loc_permutation_witness :
    (("runtime", JVal.num 3) : String × JVal).1 ≠ "loc_permutation" :=
  (no_loc_permutation (envT true [0, 1, 1, 0]) (rpT 2)
    (fun r kv hkv => by
      have h := List.mem_singleton.mp hkv
      subst h
      show ("route_geometry" : String) ≠ "loc_permutation"
      decide)).1 ("runtime", JVal.num 3) (by decide)

end RoundTrip
